import Mathlib

/-!
# Neon Breaker — verification of the simulation-tick core

Shallow embedding of the brick-breaker simulation from
`src/components/GameCanvas.tsx`, `src/constants.ts`, `src/types.ts` and the
collision helper `detectCircleRectCollision` (shipped inside `src/README.md`
after the doc text).  JavaScript numbers are modelled as rationals (ℚ);
`Math.sqrt` comparisons are replaced by the equivalent comparisons of squares
(both sides are nonnegative at every call site), and `Math.random()` inputs
are passed in as explicit parameters.  Timestamps (`Date.now()`) are ℤ.
-/

namespace NeonBreaker

/-! ## Constants (src/constants.ts) -/

def CANVAS_WIDTH : ℚ := 800
def CANVAS_HEIGHT : ℚ := 600
def PADDLE_WIDTH : ℚ := 100
def PADDLE_WIDTH_ENLARGED : ℚ := 160
def PADDLE_HEIGHT : ℚ := 20
def PADDLE_OFFSET_BOTTOM : ℚ := 40
def BALL_RADIUS : ℚ := 8
def BRICK_PADDING : ℚ := 4
def BRICK_OFFSET_TOP : ℚ := 60
def BRICK_OFFSET_LEFT : ℚ := 35
def BRICK_HEIGHT : ℚ := 25
def POWERUP_SPEED : ℚ := 3
def PIERCE_THRESHOLD_FACTOR : ℚ := 3/2
def PIERCE_DRAG : ℚ := 17/20
def MAX_BALLS : ℕ := 81

/-! ## Collision engine (detectCircleRectCollision, src/README.md lines 32-63)

The TS `Collision` interface (src/types.ts) is
`{ hit: boolean; axis?: 'x' | 'y'; overlap?: number }`; the optional fields
are modelled with `Option`.  The implementation never writes the `overlap`
field, which we model by returning `none` for it. -/

inductive Axis where
  | x : Axis
  | y : Axis
deriving DecidableEq, Repr

structure Collision where
  hit : Bool
  axis : Option Axis
  overlap : Option ℚ
deriving DecidableEq, Repr

structure Rect where
  x : ℚ
  y : ℚ
  width : ℚ
  height : ℚ
deriving DecidableEq, Repr

/-- Circle data consumed by the collision test (a `Ball`'s x, y, radius). -/
structure Circle where
  x : ℚ
  y : ℚ
  radius : ℚ
deriving DecidableEq, Repr

/-- Squared distance from the circle centre to the closest point of the
rectangle (the `closestX`/`closestY` clamp of the source). -/
def closestDist2 (c : Circle) (r : Rect) : ℚ :=
  let closestX := max r.x (min c.x (r.x + r.width))
  let closestY := max r.y (min c.y (r.y + r.height))
  let distanceX := c.x - closestX
  let distanceY := c.y - closestY
  distanceX * distanceX + distanceY * distanceY

/-- The `overlapX` quantity of the source's hit branch. -/
def overlapX (c : Circle) (r : Rect) : ℚ :=
  (c.radius + r.width / 2) - |c.x - (r.x + r.width / 2)|

/-- The `overlapY` quantity of the source's hit branch. -/
def overlapY (c : Circle) (r : Rect) : ℚ :=
  (c.radius + r.height / 2) - |c.y - (r.y + r.height / 2)|

/-- `detectCircleRectCollision` (src/README.md lines 32-63): clamp the centre
into the rectangle, compare squared distance against radius²; on a hit pick
the bounce axis from the smaller overlap.  The source returns `'x'` only when
`overlapX < overlapY` holds strictly, and never returns an `overlap` value. -/
def detectCircleRectCollision (c : Circle) (r : Rect) : Collision :=
  if closestDist2 c r < c.radius * c.radius then
    if overlapX c r < overlapY c r then
      { hit := true, axis := some Axis.x, overlap := none }
    else
      { hit := true, axis := some Axis.y, overlap := none }
  else
    { hit := false, axis := none, overlap := none }

/-! ## Data model (src/types.ts) -/

inductive BrickType where
  | standard : BrickType
  | durable : BrickType
  | mimic : BrickType
  | healer : BrickType
  | spore : BrickType
  | portal : BrickType
  | turret : BrickType
deriving DecidableEq, Repr

/-- Brick record (src/types.ts).  `status` is the current health (0 =
destroyed); purely visual fields (`color`) are omitted.  `lastActionTime` is
the `Date.now()` timestamp of the last periodic action. -/
structure Brick where
  x : ℚ
  y : ℚ
  width : ℚ
  height : ℚ
  type : BrickType
  status : ℤ
  maxHealth : ℤ
  value : ℤ
  lastActionTime : Option ℤ
deriving DecidableEq, Repr

/-- Ball record (src/types.ts); the visual trail ring buffer is omitted. -/
structure Ball where
  x : ℚ
  y : ℚ
  radius : ℚ
  dx : ℚ
  dy : ℚ
  speed : ℚ
  active : Bool
  spin : ℚ
  stuckOffset : ℚ
deriving DecidableEq, Repr

def Ball.toCircle (b : Ball) : Circle := { x := b.x, y := b.y, radius := b.radius }

def Brick.toRect (b : Brick) : Rect := { x := b.x, y := b.y, width := b.width, height := b.height }

/-! ## Scoring (GameCanvas.tsx)

Score and streak live in `setScore`/`streakRef`; each handler below is the
direct translation of one scoring site of the source. -/

structure ScoreState where
  score : ℤ
  streak : ℕ
deriving DecidableEq, Repr

/-- Streak multiplier `1 + streak * 0.1` (GameCanvas.tsx line 1580). -/
def hitMultiplier (streak : ℕ) : ℚ := 1 + (streak : ℚ) * (1/10)

/-- Points for a damaging ball-brick hit: `Math.floor(value * multiplier)`
(GameCanvas.tsx line 1582). -/
def hitPoints (value : ℤ) (streak : ℕ) : ℤ := ⌊(value : ℚ) * hitMultiplier streak⌋

/-- Scoring block a direct ball-brick collision runs (GameCanvas.tsx lines
1578-1583): the streak is incremented first, then the multiplier and the
points are computed from the incremented streak. -/
def scoreBallHit (st : ScoreState) (value : ℤ) : ScoreState :=
  let streak := st.streak + 1
  { score := st.score + hitPoints value streak, streak := streak }

/-- Scoring of one lightning-chain target (GameCanvas.tsx line 673):
`setScore(prev => prev + target.brick.value)` — raw value, streak untouched. -/
def scoreLightningHit (st : ScoreState) (value : ℤ) : ScoreState :=
  { st with score := st.score + value }

/-- Scoring of one shrapnel hit (GameCanvas.tsx line 1633):
`setScore(prev => prev + b.value)` — raw value, streak untouched. -/
def scoreShrapnelHit (st : ScoreState) (value : ℤ) : ScoreState :=
  { st with score := st.score + value }

/-- Scoring of one turret-pellet hit (GameCanvas.tsx line 1144):
`setScore(prev => prev + 10)` — flat 10 points, streak untouched. -/
def scorePelletHit (st : ScoreState) : ScoreState :=
  { st with score := st.score + 10 }

/-! ## Ball-brick collision resolution (GameCanvas.tsx lines 1529-1610) -/

/-- Portal teleport (GameCanvas.tsx lines 1543-1553): the ball is moved to a
random x across the canvas and a random y in the safe band
`[0.3 * CANVAS_HEIGHT, 0.6 * CANVAS_HEIGHT)`; `r1`, `r2` are the two
`Math.random()` draws (each in `[0, 1)`).  Velocity is untouched. -/
def portalTeleport (r1 r2 : ℚ) (ball : Ball) : Ball :=
  let safeYMin := CANVAS_HEIGHT * (3/10)
  let safeYMax := CANVAS_HEIGHT * (6/10)
  let newX := r1 * (CANVAS_WIDTH - ball.radius * 2) + ball.radius
  let newY := safeYMin + r2 * (safeYMax - safeYMin)
  { ball with x := newX, y := newY }

/-- Momentum-pierce test (GameCanvas.tsx lines 1560-1561).  The source
compares `Math.sqrt(dx*dx + dy*dy) > ballSpeed * PIERCE_THRESHOLD_FACTOR`;
both sides are nonnegative (`base` is a configured speed, 4/6/8), so we
compare the squares, which is equivalent. -/
def isMomentumPierce (base : ℚ) (ball : Ball) : Prop :=
  let threshold := base * PIERCE_THRESHOLD_FACTOR
  ball.dx * ball.dx + ball.dy * ball.dy > threshold * threshold

instance (base : ℚ) (ball : Ball) : Decidable (isMomentumPierce base ball) := by
  unfold isMomentumPierce
  infer_instance

/-- Non-portal branch of a ball-brick collision (GameCanvas.tsx lines
1558-1598): 1 damage; a piercing ball keeps its direction and is dragged by
`PIERCE_DRAG` on both components; otherwise the ball bounces on the axis the
collision reported, displaced by `collision.overlap || 1` (the collision
helper never sets `overlap`, so the displacement is always 1). -/
def resolveNormalBrickHit (base : ℚ) (ball : Ball) (b : Brick) (col : Collision) :
    Ball × Brick :=
  let damaged : Brick := { b with status := b.status - 1 }
  if isMomentumPierce base ball then
    ({ ball with dx := ball.dx * PIERCE_DRAG, dy := ball.dy * PIERCE_DRAG }, damaged)
  else
    match col.axis with
    | some Axis.x =>
      let dir : ℚ := if ball.x < b.x + b.width / 2 then -1 else 1
      ({ ball with x := ball.x + dir * (col.overlap.getD 1), dx := -ball.dx }, damaged)
    | _ =>
      let dir : ℚ := if ball.y < b.y + b.height / 2 then -1 else 1
      ({ ball with y := ball.y + dir * (col.overlap.getD 1), dy := -ball.dy }, damaged)

/-- One ball-brick collision (GameCanvas.tsx lines 1537-1576): a Portal brick
is set to health 0 and teleports the ball without a bounce; every other type
takes the normal pierce-or-bounce resolution. -/
def handleBallBrickHit (base r1 r2 : ℚ) (ball : Ball) (b : Brick) (col : Collision) :
    Ball × Brick :=
  if b.type = BrickType.portal then
    (portalTeleport r1 r2 ball, { b with status := 0 })
  else
    resolveNormalBrickHit base ball b col

/-- The brick loop of the update function (GameCanvas.tsx lines 1529-1610):
scan bricks in order, resolve the first live brick the ball hits (then
`break`), and run the scoring block on it. -/
def ballBrickScan (base r1 r2 : ℚ) (ball : Ball) :
    List Brick → ScoreState → Ball × List Brick × ScoreState
  | [], st => (ball, [], st)
  | b :: rest, st =>
    let col := detectCircleRectCollision ball.toCircle b.toRect
    if 0 < b.status ∧ col.hit then
      let res := handleBallBrickHit base r1 r2 ball b col
      (res.1, res.2 :: rest, scoreBallHit st b.value)
    else
      let res := ballBrickScan base r1 r2 ball rest st
      (res.1, b :: res.2.1, res.2.2)

/-! ## Lightning chain (triggerLightning, GameCanvas.tsx lines 654-693) -/

/-- Squared distance from the lightning origin to a brick's centre.  The
source takes `Math.sqrt`; filtering by `dist < 150` and sorting ascending are
unchanged by comparing squared distances instead. -/
def brickDist2 (ox oy : ℚ) (b : Brick) : ℚ :=
  let cx := b.x + b.width / 2
  let cy := b.y + b.height / 2
  (cx - ox) * (cx - ox) + (cy - oy) * (cy - oy)

/-- Target selection of `triggerLightning`: live bricks within range 150 of
the origin, sorted by distance, closest 3.  Indices into the brick list stand
for the object identities the source mutates. -/
def chainTargets (ox oy : ℚ) (bricks : List Brick) : List (ℕ × Brick) :=
  let live := bricks.enum.filter fun p => decide (0 < p.2.status)
  let inRange := live.filter fun p => decide (brickDist2 ox oy p.2 < 22500)
  (inRange.mergeSort fun p q => decide (brickDist2 ox oy p.2 ≤ brickDist2 ox oy q.2)).take 3

/-- `triggerLightning`: each chain target takes 1 damage and awards its raw
value (GameCanvas.tsx lines 670-692). -/
def triggerLightning (ox oy : ℚ) (bricks : List Brick) (st : ScoreState) :
    List Brick × ScoreState :=
  (chainTargets ox oy bricks).foldl
    (fun acc p => (acc.1.set p.1 { p.2 with status := p.2.status - 1 },
                   scoreLightningHit acc.2 p.2.value))
    (bricks, st)

/-! ## Shrapnel and pellet hits (GameCanvas.tsx lines 1130-1161, 1624-1641) -/

/-- Shrapnel-brick loop body (lines 1624-1640): the first live brick strictly
containing the shrapnel point takes 1 damage and awards its raw value; the
loop then breaks. -/
def shrapnelScan (sx sy : ℚ) : List Brick → ScoreState → List Brick × ScoreState
  | [], st => ([], st)
  | b :: rest, st =>
    if 0 < b.status ∧ b.x < sx ∧ sx < b.x + b.width ∧ b.y < sy ∧ sy < b.y + b.height then
      ({ b with status := b.status - 1 } :: rest, scoreShrapnelHit st b.value)
    else
      let res := shrapnelScan sx sy rest st
      (b :: res.1, res.2)

/-- Player turret pellet (fields of the `PlayerProjectile` record that the
brick-collision loop reads). -/
structure PlayerProjectile where
  x : ℚ
  y : ℚ
  width : ℚ
  height : ℚ
deriving DecidableEq, Repr

/-- Pellet-brick loop body (lines 1134-1157): the first live brick whose AABB
overlaps the pellet takes 1 damage and awards a flat 10 points; the loop then
breaks. -/
def pelletScan (p : PlayerProjectile) : List Brick → ScoreState → List Brick × ScoreState
  | [], st => ([], st)
  | b :: rest, st =>
    if 0 < b.status ∧ p.x < b.x + b.width ∧ b.x < p.x + p.width ∧
        p.y < b.y + b.height ∧ b.y < p.y + p.height then
      ({ b with status := b.status - 1 } :: rest, scorePelletHit st)
    else
      let res := pelletScan p rest st
      (b :: res.1, res.2)

/-! ## Laser beam (fireLaser, GameCanvas.tsx lines 788-822) -/

/-- Whether the 12px-wide beam centred at `center` vaporizes brick `b`. -/
def laserHits (center : ℚ) (b : Brick) : Prop :=
  0 < b.status ∧ b.x ≤ center + 6 ∧ center - 6 ≤ b.x + b.width

instance (center : ℚ) (b : Brick) : Decidable (laserHits center b) := by
  unfold laserHits
  infer_instance

/-- `fireLaser`: every live brick the beam band overlaps is set to health 0
and awards its raw value. -/
def fireLaserStep (center : ℚ) (bricks : List Brick) (st : ScoreState) :
    List Brick × ScoreState :=
  (bricks.map fun b => if laserHits center b then { b with status := 0 } else b,
   { st with score := st.score + ((bricks.filter fun b => decide (laserHits center b)).map Brick.value).sum })

/-! ## Healer bricks (updateLivingBricks, GameCanvas.tsx lines 944-1003) -/

/-- `findBrickAt` (lines 919-925) as a positional scan that also reports the
index of the found brick (the source mutates the found object in place; the
index is how we address it here). -/
def findAtScan (x y : ℚ) : List Brick → Option (ℕ × Brick)
  | [] => none
  | b :: rest =>
    if 0 < b.status ∧ |b.x - x| < 5 ∧ |b.y - y| < 5 then
      some (0, b)
    else
      (findAtScan x y rest).map fun p => (p.1 + 1, p.2)

/-- The four grid-adjacent positions a Healer/Spore scans (lines 951-956). -/
def healerNeighbors (brick : Brick) : List (ℚ × ℚ) :=
  [ (brick.x - (brick.width + BRICK_PADDING), brick.y),
    (brick.x + (brick.width + BRICK_PADDING), brick.y),
    (brick.x, brick.y - (BRICK_HEIGHT + BRICK_PADDING)),
    (brick.x, brick.y + (BRICK_HEIGHT + BRICK_PADDING)) ]

/-- `isWithinBounds` (lines 928-933). -/
def isWithinBounds (x y width height : ℚ) : Bool :=
  decide (BRICK_OFFSET_LEFT - 5 ≤ x) &&
  decide (x + width ≤ CANVAS_WIDTH - BRICK_OFFSET_LEFT + 5) &&
  decide (BRICK_OFFSET_TOP - 5 ≤ y) &&
  decide (y + height ≤ CANVAS_HEIGHT - 200)

/-- Check one neighbour position for a Durable brick below max health
(priority 1 of the Healer, lines 961-971). -/
def healTargetAt (bricks : List Brick) (pos : ℚ × ℚ) : Option (ℕ × Brick) :=
  match findAtScan pos.1 pos.2 bricks with
  | some (j, nb) =>
    if nb.type = BrickType.durable ∧ nb.status < nb.maxHealth then some (j, nb) else none
  | none => none

/-- First neighbour (in left, right, up, down order) holding a Durable brick
below max health. -/
def healTarget (bricks : List Brick) (healer : Brick) : Option (ℕ × Brick) :=
  (healerNeighbors healer).findSome? (healTargetAt bricks)

/-- Freshly spawned Standard brick (lines 980-990). -/
def newStandardBrick (x y width : ℚ) : Brick :=
  { x := x, y := y, width := width, height := BRICK_HEIGHT, type := BrickType.standard,
    status := 1, maxHealth := 1, value := 10, lastActionTime := none }

/-- Priority 2 of the Healer (lines 974-996): the first valid, empty
neighbour in the RNG-shuffled order `shuffled`. -/
def healerSpawnPos (bricks : List Brick) (healer : Brick) (shuffled : List (ℚ × ℚ)) :
    Option (ℚ × ℚ) :=
  shuffled.find? fun pos =>
    isWithinBounds pos.1 pos.2 healer.width BRICK_HEIGHT && (findAtScan pos.1 pos.2 bricks).isNone

/-- One Healer action: heal the first adjacent Durable below max health back
to full, otherwise spawn a Standard brick into the chosen empty neighbour. -/
def healerAct (bricks : List Brick) (healer : Brick) (shuffled : List (ℚ × ℚ)) :
    List Brick :=
  match healTarget bricks healer with
  | some (j, nb) => bricks.set j { nb with status := nb.maxHealth }
  | none =>
    match healerSpawnPos bricks healer shuffled with
    | some pos => bricks ++ [newStandardBrick pos.1 pos.2 healer.width]
    | none => bricks

/-- The Healer block of `updateLivingBricks` for the brick at index `i`:
nothing happens before the ~5s interval has elapsed (and a missing
`lastActionTime` is merely re-stamped); past the interval the timestamp is
re-stamped and the action runs. -/
def healerTickAt (now : ℤ) (i : ℕ) (shuffled : List (ℚ × ℚ)) (bricks : List Brick) :
    List Brick :=
  match bricks[i]? with
  | some healer =>
    if healer.type = BrickType.healer ∧ 0 < healer.status then
      match healer.lastActionTime with
      | some t =>
        if 5000 < now - t then
          healerAct (bricks.set i { healer with lastActionTime := some now }) healer shuffled
        else bricks
      | none => bricks.set i { healer with lastActionTime := some now }
    else bricks
  | none => bricks

/-! ## Spore bricks (updateLivingBricks, GameCanvas.tsx lines 1006-1038) -/

/-- The Spore's candidate spawn cells: the same four grid-adjacent positions
(the source duplicates the Healer's neighbour construction), filtered to the
valid, currently-empty ones (lines 1018-1020). -/
def sporeValidSpots (bricks : List Brick) (spore : Brick) : List (ℚ × ℚ) :=
  (healerNeighbors spore).filter fun pos =>
    isWithinBounds pos.1 pos.2 spore.width BRICK_HEIGHT && (findAtScan pos.1 pos.2 bricks).isNone

/-- The Spore block of `updateLivingBricks` for the brick at index `i`:
nothing before the ~4s interval (a missing `lastActionTime` is re-stamped);
past the interval the timestamp is re-stamped and, when some valid empty
adjacent cell exists, a Standard brick is spawned into the one picked by the
RNG draw (`rnd` models `Math.floor(Math.random() * validSpots.length)`). -/
def sporeTickAt (now : ℤ) (i rnd : ℕ) (bricks : List Brick) : List Brick :=
  match bricks[i]? with
  | some spore =>
    if spore.type = BrickType.spore ∧ 0 < spore.status then
      match spore.lastActionTime with
      | some t =>
        if 4000 < now - t then
          let stamped := bricks.set i { spore with lastActionTime := some now }
          let spots := sporeValidSpots stamped spore
          if 0 < spots.length then
            match spots[rnd % spots.length]? with
            | some pos => stamped ++ [newStandardBrick pos.1 pos.2 spore.width]
            | none => stamped
          else stamped
        else bricks
      | none => bricks.set i { spore with lastActionTime := some now }
    else bricks
  | none => bricks

/-! ## Mercy ("Last Stand") controller

State refs: `hasTriggeredMercyEventRef`, `isCriticalModeRef`,
`criticalHitCounterRef`, `criticalHeartTargetRef` (GameCanvas.tsx lines
95-98).  Three code sites touch them inside one game: the arming effect on a
lives change (lines 825-838), the counter branch of `attemptPowerUpDrop` run
on each brick destruction (lines 702-734), and the level-clear branch of the
update loop (lines 1680-1706). -/

structure MercyState where
  hasTriggered : Bool
  critical : Bool
  counter : ℕ
  target : ℕ
deriving DecidableEq, Repr

/-- Mercy state at game start / after `resetLevel(false)` (lines 368-370). -/
def mercyInit : MercyState :=
  { hasTriggered := false, critical := false, counter := 0, target := 0 }

/-- The mercy-relevant events of one game.  `livesChanged lives rnd` is a run
of the `useEffect` on `lives` (`rnd` models `Math.floor(Math.random()*7)`,
i.e. any value; the target becomes `rnd % 7 + 6`).  `brickDestroyed` is a
call of `attemptPowerUpDrop`.  `levelCleared lives` is the end-of-tick
level-complete branch. -/
inductive MercyEv where
  | livesChanged (lives : ℤ) (rnd : ℕ)
  | brickDestroyed
  | levelCleared (lives : ℤ)
deriving DecidableEq, Repr

/-- One mercy transition; the second component is the number of guaranteed
Heart power-ups the event spawns (0 or 1). -/
def mercyStep (s : MercyState) : MercyEv → MercyState × ℕ
  | .livesChanged lives rnd =>
    if lives = 1 ∧ s.hasTriggered = false then
      if s.critical = false then
        ({ s with critical := true, counter := 0, target := rnd % 7 + 6 }, 0)
      else (s, 0)
    else ({ s with critical := false }, 0)
  | .brickDestroyed =>
    if s.critical then
      let counter := s.counter + 1
      if s.target ≤ counter then
        ({ s with counter := counter, hasTriggered := true, critical := false }, 1)
      else ({ s with counter := counter }, 0)
    else (s, 0)
  | .levelCleared lives =>
    if lives = 1 ∧ s.hasTriggered = false then
      ({ s with hasTriggered := true }, 1)
    else (s, 0)

/-- Run a trace of mercy events, accumulating the guaranteed Hearts spawned. -/
def mercyRun (s : MercyState) : List MercyEv → MercyState × ℕ
  | [] => (s, 0)
  | e :: es =>
    let step := mercyStep s e
    let rest := mercyRun step.1 es
    (rest.1, step.2 + rest.2)

/-! ## Multiball ball-count arithmetic (activatePowerUp, GameCanvas.tsx lines
542-596)

Only the collection size matters for the `MAX_BALLS` invariant.  The loop
walks the pre-existing balls; each (active or resting) makes two push
attempts, each guarded by `spaceLeft > 0`, and the loop breaks once
`spaceLeft ≤ 0`. -/

def multiballAdds : ℕ → ℤ → ℕ
  | 0, _ => 0
  | n + 1, spaceLeft =>
    if spaceLeft ≤ 0 then 0
    else
      let a1 : ℕ := if 0 < spaceLeft then 1 else 0
      let s1 : ℤ := if 0 < spaceLeft then spaceLeft - 1 else spaceLeft
      let a2 : ℕ := if 0 < s1 then 1 else 0
      let s2 : ℤ := if 0 < s1 then s1 - 1 else s1
      a1 + a2 + multiballAdds n s2

/-- Ball count after a Multiball pickup with `n` balls present: the loop adds
up to `MAX_BALLS - n` new balls, and the empty-collection edge case spawns
one ball (lines 590-594). -/
def multiballNewCount (n : ℕ) : ℕ :=
  let afterLoop := n + multiballAdds n ((MAX_BALLS : ℤ) - (n : ℤ))
  if afterLoop = 0 then 1 else afterLoop

/-! ## Paddle, power-up timers and level reset (GameCanvas.tsx lines 274-372) -/

structure Paddle where
  x : ℚ
  y : ℚ
  width : ℚ
  height : ℚ
  isEnlarged : Bool
  hasArmor : Bool
deriving DecidableEq, Repr

/-- `powerUpStateRef` (lines 119-137): wall-clock end/fire timestamps. -/
structure PowerUpTimes where
  enlargeEndTime : ℤ
  barrierEndTime : ℤ
  laserFireTime : ℤ
  stickyEndTime : ℤ
  lightningEndTime : ℤ
  clusterEndTime : ℤ
  turretEndTime : ℤ
  lastTurretFireTime : ℤ
deriving DecidableEq, Repr

def powerUpTimesZero : PowerUpTimes :=
  { enlargeEndTime := 0, barrierEndTime := 0, laserFireTime := 0, stickyEndTime := 0,
    lightningEndTime := 0, clusterEndTime := 0, turretEndTime := 0, lastTurretFireTime := 0 }

/-- The slice of the component's mutable refs that `resetLevel` touches. -/
structure GameSnapshot where
  balls : List Ball
  paddle : Paddle
  powerUpState : PowerUpTimes
  barrierActive : Bool
  laserBeamActive : Bool
  isWaitingForFinalHeart : Bool
  streak : ℕ
deriving DecidableEq, Repr

/-- `spawnBall` with the default position arguments (lines 310-326): a
resting ball centred on the paddle.  `ballSpeed` is the difficulty's speed
and `mult` the endless-mode multiplier. -/
def spawnBallDefault (ballSpeed mult : ℚ) (p : Paddle) : Ball :=
  { x := p.x + p.width / 2,
    y := CANVAS_HEIGHT - PADDLE_OFFSET_BOTTOM - PADDLE_HEIGHT - BALL_RADIUS - 1,
    radius := BALL_RADIUS, dx := 0, dy := 0,
    speed := ballSpeed * mult, active := false, spin := 0, stuckOffset := 0 }

/-- `resetLevel(keepPowerUps)` (lines 328-372) restricted to the simulation
state (particle/visual arrays omitted): always respawn one resting ball and
clear the final-heart wait; only a full reset (`keep = false`) clears the
power-up timers, paddle size/armor and streak.  `widthFactor` is the
difficulty's `paddleWidthFactor`. -/
def resetLevel (keep : Bool) (widthFactor ballSpeed mult : ℚ) (g : GameSnapshot) :
    GameSnapshot :=
  let g1 := { g with balls := [spawnBallDefault ballSpeed mult g.paddle],
                     isWaitingForFinalHeart := false }
  if keep then g1
  else
    { g1 with
      laserBeamActive := false
      barrierActive := false
      paddle := { g1.paddle with width := PADDLE_WIDTH * widthFactor,
                                 isEnlarged := false, hasArmor := false }
      powerUpState := powerUpTimesZero
      streak := 0 }

/-! ## Paddle bounce (GameCanvas.tsx lines 1497-1524)

The transcendental pieces (`Math.sin`/`Math.cos` of the bounce angle and the
`Math.sqrt` normalisation) are parametrised: `s`/`c` stand for
`sin(angle)`/`cos(angle)` of the clamped angle, and `m` for the magnitude
`Math.sqrt(ndx*ndx + ndy*ndy)`; theorems carry the defining facts
(`s² + c² = 1`, `c ≥ 1/2` on `[-60°, 60°]`, `m² = ndx² + ndy²`, `m > 0`) as
hypotheses. -/

/-- Normalized hit offset, with paddle-velocity influence, clamped to
`[-1, 1]` (lines 1498-1507). -/
def bounceHitPoint (ballX paddleX paddleW paddleVel : ℚ) : ℚ :=
  let hp := (ballX - (paddleX + paddleW / 2)) / (paddleW / 2) + paddleVel * (2/100)
  max (-1) (min 1 hp)

/-- Bounce angle in degrees: the clamped hit point maps to at most ±60° from
vertical (line 1509, `hitPoint * (Math.PI / 3)`). -/
def bounceAngleDeg (hp : ℚ) : ℚ := hp * 60

/-- Post-bounce target speed (line 1511): incoming speed scaled by 1.05 and
capped at 14.  No lower bound is applied. -/
def bounceSpeed (speed : ℚ) : ℚ := min (speed * (21/20)) 14

/-- Horizontal component before normalisation (lines 1513-1519):
`newSpeed * sin(angle)`, plus the random micro-drift `driftA` when it is
within 0.1 of zero. -/
def bounceNdx (newSpeed s driftA : ℚ) : ℚ :=
  let ndx0 := newSpeed * s
  if |ndx0| < 1/10 then ndx0 + driftA else ndx0

/-- Velocity after the bounce (lines 1513-1524): components from the angle
(`ndy = -newSpeed * cos(angle)` is always negative), micro-drift on the
horizontal component, then renormalisation to exactly `newSpeed` by the
magnitude `m`. -/
def bounceVelocity (newSpeed s c driftA m : ℚ) : ℚ × ℚ :=
  ((bounceNdx newSpeed s driftA / m) * newSpeed, (-(newSpeed * c) / m) * newSpeed)

/-! ## Configured ball speeds (DIFFICULTY_SETTINGS, src/constants.ts) -/

def ballSpeedEasy : ℚ := 4
def ballSpeedMedium : ℚ := 6
def ballSpeedHard : ℚ := 8

/-! ## Combined per-tick operations for the global invariant (claim C1) -/

/-- The simulation state the invariant of §8 constrains: the brick storage
and the size of `ballsRef`. -/
structure SimState where
  bricks : List Brick
  ballCount : ℕ
  scoring : ScoreState
deriving DecidableEq, Repr

/-- Every mutation of brick health, of the brick collection, or of the ball
collection that one tick can perform (ball/lightning/shrapnel/pellet/laser
damage, Healer heal or spawn, Spore spawn, Multiball, soft reset, loss
cleanup), with its RNG draws and geometry as parameters.  The remaining tick
work (Mimic dodge, Turret fire, paddle/ball motion) moves positions only and
touches neither brick health nor the collection sizes. -/
inductive SimOp where
  | ballHit (base r1 r2 : ℚ) (ball : Ball)
  | lightning (ox oy : ℚ)
  | shrapnel (sx sy : ℚ)
  | pellet (p : PlayerProjectile)
  | laser (center : ℚ)
  | healerTick (now : ℤ) (i : ℕ) (shuffled : List (ℚ × ℚ))
  | sporeTick (now : ℤ) (i rnd : ℕ)
  | multiball
  | softReset
  | clearBalls

/-- Apply one operation, dispatching to the embedded source functions. -/
def applyOp (s : SimState) : SimOp → SimState
  | .ballHit base r1 r2 ball =>
    let res := ballBrickScan base r1 r2 ball s.bricks s.scoring
    { s with bricks := res.2.1, scoring := res.2.2 }
  | .lightning ox oy =>
    let res := triggerLightning ox oy s.bricks s.scoring
    { s with bricks := res.1, scoring := res.2 }
  | .shrapnel sx sy =>
    let res := shrapnelScan sx sy s.bricks s.scoring
    { s with bricks := res.1, scoring := res.2 }
  | .pellet p =>
    let res := pelletScan p s.bricks s.scoring
    { s with bricks := res.1, scoring := res.2 }
  | .laser center =>
    let res := fireLaserStep center s.bricks s.scoring
    { s with bricks := res.1, scoring := res.2 }
  | .healerTick now i shuffled =>
    { s with bricks := healerTickAt now i shuffled s.bricks }
  | .sporeTick now i rnd =>
    { s with bricks := sporeTickAt now i rnd s.bricks }
  | .multiball => { s with ballCount := multiballNewCount s.ballCount }
  | .softReset => { s with ballCount := 1 }
  | .clearBalls => { s with ballCount := 0 }

/-- Health bounds of one brick. -/
def BrickInv (b : Brick) : Prop := 0 ≤ b.status ∧ b.status ≤ b.maxHealth

/-- The §8 invariant: every brick's health in `[0, maxHealth]` and the ball
collection within `MAX_BALLS`. -/
def SimInv (s : SimState) : Prop :=
  (∀ b ∈ s.bricks, BrickInv b) ∧ s.ballCount ≤ MAX_BALLS

/-! ## Concrete instances used by the witness and counterexample theorems -/

/-- Circle whose hit on `tieRect` has `overlapX = overlapY` (a tie). -/
def tieCircle : Circle := { x := 5, y := 5, radius := 4 }

def tieRect : Rect := { x := 0, y := 0, width := 10, height := 10 }

/-- Healer brick of the §8 heal scenario (value 50 per `initBricks`). -/
def healerEx : Brick :=
  { x := 100, y := 100, width := 50, height := 25, type := BrickType.healer,
    status := 1, maxHealth := 1, value := 50, lastActionTime := some 0 }

/-- Adjacent Durable brick at health 1 of 2, one grid cell to the left. -/
def durableEx : Brick :=
  { x := 46, y := 100, width := 50, height := 25, type := BrickType.durable,
    status := 1, maxHealth := 2, value := 30, lastActionTime := none }

/-- An active ball about to hit a portal brick. -/
def portalBallEx : Ball :=
  { x := 50, y := 100, radius := 8, dx := 2, dy := 3, speed := 6, active := true,
    spin := 0, stuckOffset := 0 }

/-- The portal brick being touched. -/
def portalBrickA : Brick :=
  { x := 42, y := 95, width := 50, height := 25, type := BrickType.portal,
    status := 1, maxHealth := 1, value := 40, lastActionTime := none }

/-- A second, still-live portal brick sitting inside the relocation band. -/
def portalBrickB : Brick :=
  { x := 100, y := 200, width := 50, height := 25, type := BrickType.portal,
    status := 1, maxHealth := 1, value := 40, lastActionTime := none }

/-- A ball faster than `ballSpeedMedium * PIERCE_THRESHOLD_FACTOR = 9`. -/
def fastBallEx : Ball :=
  { x := 50, y := 100, radius := 8, dx := 10, dy := 0, speed := 6, active := true,
    spin := 0, stuckOffset := 0 }

/-- A standard brick the fast ball pierces. -/
def standardBrickEx : Brick :=
  { x := 42, y := 95, width := 50, height := 25, type := BrickType.standard,
    status := 1, maxHealth := 1, value := 10, lastActionTime := none }

/-- Result of the portal contact above with RNG draws `r1 = 117/784`,
`r2 = 13/72`: the ball is relocated to `(125, 212.5)`, the centre of
`portalBrickB`. -/
def portalResEx : Ball × Brick :=
  handleBallBrickHit ballSpeedMedium (117/784) (13/72) portalBallEx portalBrickA
    (detectCircleRectCollision portalBallEx.toCircle portalBrickA.toRect)

/-- Event trace of one game exercising the mercy controller: arm at 1 life
with target 6, destroy three bricks, clear the level while still armed (the
centre Heart spawns and is missed, so `lives` never changes), then destroy
three bricks in the next level. -/
def mercyTrace : List MercyEv :=
  [ MercyEv.livesChanged 1 0, MercyEv.brickDestroyed, MercyEv.brickDestroyed,
    MercyEv.brickDestroyed, MercyEv.levelCleared 1, MercyEv.brickDestroyed,
    MercyEv.brickDestroyed, MercyEv.brickDestroyed ]

/-! # Theorems -/

/-- Claim C5 (counterexample): at a tie (`overlapX = overlapY`) the collision
detector reports bounce axis `y`, not `x` as claimed, and the result carries
no `overlap` value even though the claim says the overlap is returned. -/
theorem detectCircleRect_tie_counterexample :
    overlapX tieCircle tieRect = overlapY tieCircle tieRect
    ∧ detectCircleRectCollision tieCircle tieRect =
        { hit := true, axis := some Axis.y, overlap := none }
    ∧ (detectCircleRectCollision tieCircle tieRect).axis ≠ some Axis.x := by
  refine ⟨?_, ?_, ?_⟩
  · norm_num [overlapX, overlapY, tieCircle, tieRect]
  · norm_num [detectCircleRectCollision, closestDist2, overlapX, overlapY, tieCircle, tieRect]
  · norm_num [detectCircleRectCollision, closestDist2, overlapX, overlapY, tieCircle, tieRect]
    decide

/-- Claim C5 (amended): `detectCircleRectCollision` reports a hit exactly
when the squared distance from the centre to the clamped closest point is
below radius²; on a hit the smaller overlap picks the bounce axis with a tie
giving axis `y`; and the `overlap` field is never populated (callers default
it to 1). -/
theorem detectCircleRect_spec (c : Circle) (r : Rect) :
    ((detectCircleRectCollision c r).hit = true ↔
        closestDist2 c r < c.radius * c.radius)
    ∧ ((detectCircleRectCollision c r).hit = true →
        (detectCircleRectCollision c r).axis =
          some (if overlapX c r < overlapY c r then Axis.x else Axis.y))
    ∧ (detectCircleRectCollision c r).overlap = none := by
  unfold detectCircleRectCollision
  by_cases h1 : closestDist2 c r < c.radius * c.radius
  · by_cases h2 : overlapX c r < overlapY c r <;> simp [h1, h2]
  · simp [h1]

/-- Claim C5 (witness): the amended tie behaviour evaluated at the concrete
tie input. -/
theorem detectCircleRect_spec_witness :
    (detectCircleRectCollision tieCircle tieRect).axis = some Axis.y := by
  have hd : closestDist2 tieCircle tieRect < tieCircle.radius * tieCircle.radius := by
    norm_num [closestDist2, tieCircle, tieRect]
  have hhit := (detectCircleRect_spec tieCircle tieRect).1.mpr hd
  have h := (detectCircleRect_spec tieCircle tieRect).2.1 hhit
  rw [h, if_neg]
  norm_num [overlapX, overlapY, tieCircle, tieRect]

/-- Claim C3 (counterexample): a ball with streak 0 destroying a Standard
brick of value 10 raises the score by 11, not 10, because the streak is
incremented before the multiplier is computed. -/
theorem scoreBallHit_first_hit_counterexample :
    scoreBallHit { score := 0, streak := 0 } 10 = { score := 11, streak := 1 }
    ∧ (11 : ℤ) ≠ 10 := by
  constructor
  · simp [scoreBallHit, hitPoints, hitMultiplier]
    norm_num
  · decide

/-- Claim C3 (amended): on a damaging ball-brick hit the streak is
incremented first and the points are `floor(value * (1 + 0.1*(streak+1)))`;
from streak 0, a value-10 brick awards 11 and sets the streak to 1, and a
second consecutive value-10 hit awards 12 (total 23). -/
theorem scoreBallHit_spec (st : ScoreState) :
    (∀ value : ℤ, scoreBallHit st value =
        { score := st.score + hitPoints value (st.streak + 1), streak := st.streak + 1 })
    ∧ hitPoints 10 1 = 11 ∧ hitPoints 10 2 = 12
    ∧ (scoreBallHit { score := st.score, streak := 0 } 10) =
        { score := st.score + 11, streak := 1 }
    ∧ (scoreBallHit (scoreBallHit { score := st.score, streak := 0 } 10) 10) =
        { score := st.score + 23, streak := 2 } := by
  have h1 : hitPoints 10 1 = 11 := by norm_num [hitPoints, hitMultiplier]
  have h2 : hitPoints 10 2 = 12 := by norm_num [hitPoints, hitMultiplier]
  refine ⟨fun _ => rfl, h1, h2, ?_, ?_⟩
  · simp [scoreBallHit, h1]
  · simp [scoreBallHit, h1, h2]
    omega

/-- Claim C2 (code evaluated at the failing trace): with the mercy controller
armed at 1 life (target 6), three bricks destroyed, the level cleared while
still armed (spawning the first guaranteed Heart, which is missed so `lives`
never changes and critical mode is never disarmed), three more destructions
in the next level spawn a second guaranteed Heart — two in one game. -/
theorem mercy_two_hearts_eval :
    (mercyRun mercyInit mercyTrace).2 = 2 ∧ 1 < (mercyRun mercyInit mercyTrace).2 := by
  constructor <;> decide

/-- Claim C9: the soft reset (`resetLevel(true)`) keeps every power-up
end-time and the paddle width, and replaces the ball collection with exactly
one resting ball centred on the paddle. -/
theorem resetLevel_soft_spec (widthFactor ballSpeed mult : ℚ) (g : GameSnapshot) :
    (resetLevel true widthFactor ballSpeed mult g).powerUpState = g.powerUpState
    ∧ (resetLevel true widthFactor ballSpeed mult g).paddle.width = g.paddle.width
    ∧ (resetLevel true widthFactor ballSpeed mult g).balls
        = [spawnBallDefault ballSpeed mult g.paddle]
    ∧ (spawnBallDefault ballSpeed mult g.paddle).active = false
    ∧ (spawnBallDefault ballSpeed mult g.paddle).x = g.paddle.x + g.paddle.width / 2 := by
  exact ⟨rfl, rfl, rfl, rfl, rfl⟩

/-- Claim C4: on a non-Portal brick collision, the brick always takes exactly
1 damage; a ball whose speed exceeds `base * PIERCE_THRESHOLD_FACTOR`
(compared via squares) keeps the sign of both components and has each
multiplied by `PIERCE_DRAG = 0.85` exactly once, while a slower ball bounces
normally: the reported axis component is reversed and the other kept. -/
theorem momentumPierce_spec (base r1 r2 : ℚ) (ball : Ball) (b : Brick) (col : Collision)
    (hb : b.type ≠ BrickType.portal) :
    ((handleBallBrickHit base r1 r2 ball b col).2.status = b.status - 1)
    ∧ (isMomentumPierce base ball →
        (handleBallBrickHit base r1 r2 ball b col).1.dx = ball.dx * PIERCE_DRAG
        ∧ (handleBallBrickHit base r1 r2 ball b col).1.dy = ball.dy * PIERCE_DRAG)
    ∧ (¬ isMomentumPierce base ball → col.axis = some Axis.x →
        (handleBallBrickHit base r1 r2 ball b col).1.dx = -ball.dx
        ∧ (handleBallBrickHit base r1 r2 ball b col).1.dy = ball.dy)
    ∧ (¬ isMomentumPierce base ball → col.axis = some Axis.y →
        (handleBallBrickHit base r1 r2 ball b col).1.dy = -ball.dy
        ∧ (handleBallBrickHit base r1 r2 ball b col).1.dx = ball.dx) := by
  unfold handleBallBrickHit resolveNormalBrickHit
  rw [if_neg hb]
  by_cases hp : isMomentumPierce base ball
  · simp [hp]
  · rcases hax : col.axis with _ | ax
    · simp [hp, hax]
    · cases ax <;> simp [hp, hax]

/-- Claim C4 (witness): a ball at speed 10 against medium base speed 6
(threshold 9) pierces a standard brick: 1 damage and `dx` dragged to 8.5. -/
theorem momentumPierce_spec_witness :
    isMomentumPierce ballSpeedMedium fastBallEx
    ∧ (handleBallBrickHit ballSpeedMedium 0 0 fastBallEx standardBrickEx
        (detectCircleRectCollision fastBallEx.toCircle standardBrickEx.toRect)).1.dx
        = fastBallEx.dx * PIERCE_DRAG
    ∧ (handleBallBrickHit ballSpeedMedium 0 0 fastBallEx standardBrickEx
        (detectCircleRectCollision fastBallEx.toCircle standardBrickEx.toRect)).2.status
        = standardBrickEx.status - 1 := by
  have hp : isMomentumPierce ballSpeedMedium fastBallEx := by
    norm_num [isMomentumPierce, ballSpeedMedium, fastBallEx, PIERCE_THRESHOLD_FACTOR]
  have hb : standardBrickEx.type ≠ BrickType.portal := by
    simp [standardBrickEx]
  have h := momentumPierce_spec ballSpeedMedium 0 0 fastBallEx standardBrickEx
    (detectCircleRectCollision fastBallEx.toCircle standardBrickEx.toRect) hb
  exact ⟨hp, (h.2.1 hp).1, h.1⟩

/-- A ball of the standard radius anywhere above y = 360 cannot be in
contact with the paddle rectangle (paddle top edge is at y = 560). -/
lemma teleport_misses_paddle (cx cy px pw : ℚ) (h : cy < 360) :
    (detectCircleRectCollision { x := cx, y := cy, radius := BALL_RADIUS }
      { x := px, y := CANVAS_HEIGHT - PADDLE_OFFSET_BOTTOM, width := pw,
        height := PADDLE_HEIGHT }).hit = false := by
  unfold detectCircleRectCollision
  rw [if_neg]
  unfold closestDist2
  norm_num [CANVAS_HEIGHT, PADDLE_OFFSET_BOTTOM, PADDLE_HEIGHT, BALL_RADIUS]
  have h1 : min cy (580 : ℚ) = cy := min_eq_left (by linarith)
  have h2 : max (560 : ℚ) cy = 560 := max_eq_left (by linarith)
  rw [h1, h2]
  nlinarith [sq_nonneg (cx - max px (min cx (px + pw))), sq_nonneg (cy - 560)]

/-- Claim C8 (amended): any contact of a ball with a Portal brick sets the
portal's health to 0 regardless of ball speed, leaves the velocity unchanged
(no bounce), and relocates the ball to a random point whose y lies in the
band `[0.3*H, 0.6*H) = [180, 360)`; the band guarantees no instant
re-collision with the paddle, but nothing prevents the ball from landing on
another live brick, including another portal. -/
theorem portalHit_spec (base r1 r2 px pw : ℚ) (ball : Ball) (b : Brick) (col : Collision)
    (hb : b.type = BrickType.portal) (h0 : 0 ≤ r2) (h1 : r2 < 1)
    (hrad : ball.radius = BALL_RADIUS) :
    ((handleBallBrickHit base r1 r2 ball b col).2.status = 0)
    ∧ (handleBallBrickHit base r1 r2 ball b col).1.dx = ball.dx
    ∧ (handleBallBrickHit base r1 r2 ball b col).1.dy = ball.dy
    ∧ 180 ≤ (handleBallBrickHit base r1 r2 ball b col).1.y
    ∧ (handleBallBrickHit base r1 r2 ball b col).1.y < 360
    ∧ (detectCircleRectCollision (handleBallBrickHit base r1 r2 ball b col).1.toCircle
        { x := px, y := CANVAS_HEIGHT - PADDLE_OFFSET_BOTTOM, width := pw,
          height := PADDLE_HEIGHT }).hit = false := by
  have hy : (handleBallBrickHit base r1 r2 ball b col).1.y = 180 + r2 * 180 := by
    simp [handleBallBrickHit, hb, portalTeleport, CANVAS_HEIGHT]
    ring
  have hylb : (180 : ℚ) ≤ 180 + r2 * 180 := by nlinarith
  have hyub : (180 : ℚ) + r2 * 180 < 360 := by nlinarith
  refine ⟨?_, ?_, ?_, ?_, ?_, ?_⟩
  · simp [handleBallBrickHit, hb]
  · simp [handleBallBrickHit, hb, portalTeleport]
  · simp [handleBallBrickHit, hb, portalTeleport]
  · rw [hy]; exact hylb
  · rw [hy]; exact hyub
  · have hc : (handleBallBrickHit base r1 r2 ball b col).1.toCircle =
        { x := (handleBallBrickHit base r1 r2 ball b col).1.x, y := 180 + r2 * 180,
          radius := BALL_RADIUS } := by
      simp [Ball.toCircle, hy]
      simp [handleBallBrickHit, hb, portalTeleport, hrad]
    rw [hc]
    exact teleport_misses_paddle _ _ px pw (by nlinarith)

/-- Claim C8 (witness): the amended statement evaluated at the concrete
portal contact. -/
theorem portalHit_spec_witness :
    (handleBallBrickHit ballSpeedMedium (117/784) (13/72) portalBallEx portalBrickA
      (detectCircleRectCollision portalBallEx.toCircle portalBrickA.toRect)).2.status = 0
    ∧ (detectCircleRectCollision
        (handleBallBrickHit ballSpeedMedium (117/784) (13/72) portalBallEx portalBrickA
          (detectCircleRectCollision portalBallEx.toCircle portalBrickA.toRect)).1.toCircle
        { x := 0, y := CANVAS_HEIGHT - PADDLE_OFFSET_BOTTOM, width := 100,
          height := PADDLE_HEIGHT }).hit = false := by
  have h := portalHit_spec ballSpeedMedium (117/784) (13/72) 0 100 portalBallEx portalBrickA
    (detectCircleRectCollision portalBallEx.toCircle portalBrickA.toRect)
    (by simp [portalBrickA]) (by norm_num) (by norm_num) (by norm_num [portalBallEx, BALL_RADIUS])
  exact ⟨h.1, h.2.2.2.2.2⟩

/-- Claim C8 (counterexample): the relocation band does not avoid instant
re-collision with another portal — with RNG draws `117/784`, `13/72` the
relocated ball lands at `(125, 212.5)`, inside the still-live portal brick
`portalBrickB`, and the collision detector reports a hit there. -/
theorem portal_reCollision_counterexample :
    0 < portalBrickB.status ∧ portalBrickB.type = BrickType.portal
    ∧ 180 ≤ portalResEx.1.y ∧ portalResEx.1.y < 360
    ∧ (detectCircleRectCollision portalResEx.1.toCircle portalBrickB.toRect).hit = true
    ∧ portalResEx.2.status = 0 := by
  refine ⟨by norm_num [portalBrickB], by norm_num [portalBrickB], ?_, ?_, ?_, ?_⟩
  · norm_num [portalResEx, handleBallBrickHit, portalTeleport, portalBallEx, portalBrickA,
      CANVAS_WIDTH, CANVAS_HEIGHT]
  · norm_num [portalResEx, handleBallBrickHit, portalTeleport, portalBallEx, portalBrickA,
      CANVAS_WIDTH, CANVAS_HEIGHT]
  · norm_num [portalResEx, handleBallBrickHit, portalTeleport, detectCircleRectCollision,
      closestDist2, portalBallEx, portalBrickA, portalBrickB, Ball.toCircle, Brick.toRect,
      CANVAS_WIDTH, CANVAS_HEIGHT]
    split <;> rfl
  · norm_num [portalResEx, handleBallBrickHit, portalBrickA, portalBallEx]

/-- Claim C6 (counterexample): the bounce applies no lower speed bound — the
post-bounce speed of a slow incoming ball (speed 1) is `1.05`, below every
configured base ball speed (4, 6, 8), so no `minSpeed` lower bound holds. -/
theorem bounceSpeed_no_lower_bound_counterexample :
    bounceSpeed 1 = 21/20
    ∧ bounceSpeed 1 < ballSpeedEasy
    ∧ bounceSpeed 1 < ballSpeedMedium
    ∧ bounceSpeed 1 < ballSpeedHard := by
  norm_num [bounceSpeed, min_def, ballSpeedEasy, ballSpeedMedium, ballSpeedHard]

/-- Claim C6 (amended): a non-sticky paddle bounce of an active ball yields
`dy < 0`, a bounce angle of at most 60° from vertical after clamping the hit
offset, and a post-bounce speed of exactly `min(incoming * 1.05, 14)` — so at
most 14, and positive, but with no lower bound.  `s`, `c` stand for the sine
and cosine of the bounce angle (`s² + c² = 1`, and `c ≥ 1/2` on
`[-60°, 60°]`) and `m` for the `Math.sqrt` renormalisation magnitude. -/
theorem paddleBounce_spec (speed s c driftA m ballX paddleX paddleW paddleVel : ℚ)
    (hs : s * s + c * c = 1) (hc : 1/2 ≤ c) (hsp : 0 < speed) (hm0 : 0 < m)
    (hm : m * m =
      bounceNdx (bounceSpeed speed) s driftA * bounceNdx (bounceSpeed speed) s driftA
        + (bounceSpeed speed * c) * (bounceSpeed speed * c)) :
    (bounceVelocity (bounceSpeed speed) s c driftA m).2 < 0
    ∧ (bounceVelocity (bounceSpeed speed) s c driftA m).1
        * (bounceVelocity (bounceSpeed speed) s c driftA m).1
      + (bounceVelocity (bounceSpeed speed) s c driftA m).2
        * (bounceVelocity (bounceSpeed speed) s c driftA m).2
      = bounceSpeed speed * bounceSpeed speed
    ∧ 0 < bounceSpeed speed ∧ bounceSpeed speed ≤ 14
    ∧ |bounceAngleDeg (bounceHitPoint ballX paddleX paddleW paddleVel)| ≤ 60 := by
  have hns : 0 < bounceSpeed speed :=
    lt_min (by nlinarith) (by norm_num)
  have hm' : m ≠ 0 := ne_of_gt hm0
  refine ⟨?_, ?_, hns, min_le_right _ _, ?_⟩
  · show -(bounceSpeed speed * c) / m * bounceSpeed speed < 0
    have hnum : -(bounceSpeed speed * c) < 0 := by nlinarith
    have : -(bounceSpeed speed * c) / m < 0 := div_neg_of_neg_of_pos hnum hm0
    exact mul_neg_of_neg_of_pos this hns
  · show bounceNdx (bounceSpeed speed) s driftA / m * bounceSpeed speed
        * (bounceNdx (bounceSpeed speed) s driftA / m * bounceSpeed speed)
      + -(bounceSpeed speed * c) / m * bounceSpeed speed
        * (-(bounceSpeed speed * c) / m * bounceSpeed speed)
      = bounceSpeed speed * bounceSpeed speed
    field_simp
    linear_combination (-(bounceSpeed speed * bounceSpeed speed)) * hm
  · have hlb : (-1 : ℚ) ≤ bounceHitPoint ballX paddleX paddleW paddleVel :=
      le_max_left _ _
    have hub : bounceHitPoint ballX paddleX paddleW paddleVel ≤ 1 :=
      max_le (by norm_num) (min_le_left _ _)
    rw [bounceAngleDeg, abs_le]
    constructor <;> nlinarith

/-- Claim C6 (witness): the amended bounce property at incoming speed 10 with
bounce angle `arcsin(3/5)` (sine 3/5, cosine 4/5): the post-bounce speed is
10.5 and `dy < 0`. -/
theorem paddleBounce_spec_witness :
    (bounceVelocity (bounceSpeed 10) (3/5) (4/5) 0 (21/2)).2 < 0
    ∧ bounceSpeed 10 ≤ 14 := by
  have h := paddleBounce_spec 10 (3/5) (4/5) 0 (21/2) 0 0 100 0
    (by norm_num) (by norm_num) (by norm_num) (by norm_num)
    (by norm_num [bounceNdx, bounceSpeed, min_def, abs])
  exact ⟨h.1, h.2.2.2.1⟩

/-- Inversion of `findAtScan`: a found brick really sits at the returned
index, is alive, and is within tolerance of the queried position. -/
lemma findAtScan_eq_some {x y : ℚ} :
    ∀ {bricks : List Brick} {j : ℕ} {nb : Brick},
      findAtScan x y bricks = some (j, nb) →
      bricks[j]? = some nb ∧ 0 < nb.status := by
  intro bricks
  induction bricks with
  | nil => intro j nb h; simp [findAtScan] at h
  | cons b rest ih =>
    intro j nb h
    by_cases hb : 0 < b.status ∧ |b.x - x| < 5 ∧ |b.y - y| < 5
    · rw [findAtScan, if_pos hb] at h
      obtain ⟨hj, hnb⟩ := Prod.mk.injEq .. ▸ Option.some.inj h
      subst hj
      simp [← hnb, hb.1]
    · rw [findAtScan, if_neg hb] at h
      obtain ⟨p, hp, hpe⟩ := Option.map_eq_some'.mp h
      obtain ⟨hj, hnb⟩ := Prod.mk.injEq .. ▸ hpe
      subst hj
      have := ih hp
      simp [← hnb, this.1, this.2]

/-- Inversion of `healTarget`: the heal target is a Durable brick below max
health stored at the returned index. -/
lemma healTarget_props {bricks : List Brick} {healer nb : Brick} {j : ℕ}
    (h : healTarget bricks healer = some (j, nb)) :
    bricks[j]? = some nb ∧ nb.type = BrickType.durable ∧ nb.status < nb.maxHealth := by
  obtain ⟨pos, _, hat⟩ := List.exists_of_findSome?_eq_some h
  unfold healTargetAt at hat
  rcases hscan : findAtScan pos.1 pos.2 bricks with _ | ⟨j', nb'⟩ <;> rw [hscan] at hat <;>
    dsimp only at hat
  · exact absurd hat (by simp)
  · by_cases hcond : nb'.type = BrickType.durable ∧ nb'.status < nb'.maxHealth
    · rw [if_pos hcond] at hat
      obtain ⟨hj, hnb⟩ := Prod.mk.injEq .. ▸ Option.some.inj hat
      subst hj
      have := findAtScan_eq_some hscan
      exact ⟨hnb ▸ this.1, hnb ▸ hcond.1, hnb ▸ hcond.2⟩
    · rw [if_neg hcond] at hat
      exact absurd hat (by simp)

/-- Claim C7: once the ~5s interval of a live Healer has elapsed it first
scans its four grid-adjacent cells for a Durable brick below max health; if
one is found it is restored to full health and nothing is spawned (the brick
list keeps its length); only when no heal target exists does the Healer
spawn a fresh 1/1 Standard brick into the first valid, currently-empty
adjacent cell of the RNG-shuffled neighbour order (`shuffled` is a
permutation of the four neighbours), doing nothing when no such cell
exists. -/
theorem healer_spec (now t : ℤ) (i : ℕ) (shuffled : List (ℚ × ℚ))
    (bricks : List Brick) (healer : Brick)
    (hi : bricks[i]? = some healer) (hty : healer.type = BrickType.healer)
    (hst : 0 < healer.status) (hlt : healer.lastActionTime = some t)
    (hint : 5000 < now - t) (hshuf : shuffled.Perm (healerNeighbors healer)) :
    (∀ j nb,
      healTarget (bricks.set i { healer with lastActionTime := some now }) healer
          = some (j, nb) →
      healerTickAt now i shuffled bricks
        = (bricks.set i { healer with lastActionTime := some now }).set j
            { nb with status := nb.maxHealth }
      ∧ (healerTickAt now i shuffled bricks).length = bricks.length
      ∧ nb.type = BrickType.durable ∧ nb.status < nb.maxHealth)
    ∧ (healTarget (bricks.set i { healer with lastActionTime := some now }) healer
        = none →
      (∀ pos,
        healerSpawnPos (bricks.set i { healer with lastActionTime := some now })
            healer shuffled = some pos →
        healerTickAt now i shuffled bricks
          = (bricks.set i { healer with lastActionTime := some now })
              ++ [newStandardBrick pos.1 pos.2 healer.width]
        ∧ (healerTickAt now i shuffled bricks).length = bricks.length + 1
        ∧ pos ∈ healerNeighbors healer
        ∧ isWithinBounds pos.1 pos.2 healer.width BRICK_HEIGHT = true
        ∧ (findAtScan pos.1 pos.2
            (bricks.set i { healer with lastActionTime := some now })).isNone = true
        ∧ (newStandardBrick pos.1 pos.2 healer.width).type = BrickType.standard
        ∧ (newStandardBrick pos.1 pos.2 healer.width).status = 1)
      ∧ (healerSpawnPos (bricks.set i { healer with lastActionTime := some now })
            healer shuffled = none →
        healerTickAt now i shuffled bricks
          = bricks.set i { healer with lastActionTime := some now })) := by
  have hred : healerTickAt now i shuffled bricks
      = healerAct (bricks.set i { healer with lastActionTime := some now })
          healer shuffled := by
    unfold healerTickAt
    rw [hi]
    dsimp only
    rw [if_pos (⟨hty, hst⟩ : healer.type = BrickType.healer ∧ 0 < healer.status), hlt]
    dsimp only
    rw [if_pos hint]
  constructor
  · intro j nb hheal
    have hprops := healTarget_props hheal
    have heq : healerTickAt now i shuffled bricks
        = (bricks.set i { healer with lastActionTime := some now }).set j
            { nb with status := nb.maxHealth } := by
      rw [hred]
      unfold healerAct
      rw [hheal]
    refine ⟨heq, ?_, hprops.2.1, hprops.2.2⟩
    rw [heq]
    simp
  · intro hnone
    constructor
    · intro pos hpos
      have heq : healerTickAt now i shuffled bricks
          = (bricks.set i { healer with lastActionTime := some now })
              ++ [newStandardBrick pos.1 pos.2 healer.width] := by
        rw [hred]
        unfold healerAct
        rw [hnone]
        dsimp only
        rw [hpos]
      have hfind := List.find?_some hpos
      rw [Bool.and_eq_true] at hfind
      have hmem : pos ∈ healerNeighbors healer := hshuf.subset (List.mem_of_find?_eq_some hpos)
      refine ⟨heq, ?_, hmem, hfind.1, hfind.2, rfl, rfl⟩
      rw [heq]
      simp
    · intro hnone2
      rw [hred]
      unfold healerAct
      rw [hnone]
      dsimp only
      rw [hnone2]

/-- Claim C7 (witness): both priorities at concrete inputs — the §8 heal
scenario (adjacent Durable at 1 of 2 restored to 2 of 2, nothing spawned)
and, for a lone Healer with no Durable neighbour, the spawn of a 1/1
Standard brick into the first empty adjacent cell. -/
theorem healer_spec_witness :
    healerTickAt 6000 0 (healerNeighbors healerEx) [healerEx, durableEx]
      = [{ healerEx with lastActionTime := some 6000 }, { durableEx with status := 2 }]
    ∧ healerTickAt 6000 0 (healerNeighbors healerEx) [healerEx]
      = [{ healerEx with lastActionTime := some 6000 }, newStandardBrick 46 100 50] := by
  constructor
  · have h := healer_spec 6000 0 0 (healerNeighbors healerEx) [healerEx, durableEx] healerEx
      rfl rfl (by norm_num [healerEx]) rfl (by norm_num) (List.Perm.refl _)
    have hh := h.1 1 durableEx
      (by norm_num [healTarget, healTargetAt, findAtScan, healerNeighbors, healerEx,
        durableEx, BRICK_PADDING, BRICK_HEIGHT, List.findSome?])
    rw [hh.1]
    norm_num [healerEx, durableEx]
  · have h := healer_spec 6000 0 0 (healerNeighbors healerEx) [healerEx] healerEx
      rfl rfl (by norm_num [healerEx]) rfl (by norm_num) (List.Perm.refl _)
    have hsp := (h.2
      (by norm_num [healTarget, healTargetAt, findAtScan, healerNeighbors, healerEx,
        BRICK_PADDING, BRICK_HEIGHT, List.findSome?])).1 (46, 100)
      (by norm_num [healerSpawnPos, healerNeighbors, isWithinBounds, findAtScan, healerEx,
        BRICK_PADDING, BRICK_HEIGHT, BRICK_OFFSET_LEFT, BRICK_OFFSET_TOP,
        CANVAS_WIDTH, CANVAS_HEIGHT, List.find?])
    rw [hsp.1]
    norm_num [healerEx]

/-- The lightning fold leaves the streak untouched and adds exactly the sum
of the raw values of its targets. -/
lemma lightning_foldl_score (ts : List (ℕ × Brick)) :
    ∀ (bs : List Brick) (st : ScoreState),
      ((ts.foldl
        (fun acc p => (acc.1.set p.1 { p.2 with status := p.2.status - 1 },
          scoreLightningHit acc.2 p.2.value)) (bs, st)).2.streak = st.streak)
      ∧ ((ts.foldl
        (fun acc p => (acc.1.set p.1 { p.2 with status := p.2.status - 1 },
          scoreLightningHit acc.2 p.2.value)) (bs, st)).2.score
        = st.score + (ts.map fun q => q.2.value).sum) := by
  induction ts with
  | nil => intro bs st; simp
  | cons p ts ih =>
    intro bs st
    have h := ih (bs.set p.1 { p.2 with status := p.2.status - 1 })
      (scoreLightningHit st p.2.value)
    simp only [List.foldl_cons, List.map_cons, List.sum_cons]
    refine ⟨h.1, ?_⟩
    rw [h.2]
    simp [scoreLightningHit]
    ring

/-- The shrapnel scan leaves the streak untouched and adds either nothing or
the raw value of one brick of the list. -/
lemma shrapnelScan_score (sx sy : ℚ) :
    ∀ (bs : List Brick) (st : ScoreState),
      (shrapnelScan sx sy bs st).2.streak = st.streak
      ∧ ((shrapnelScan sx sy bs st).2.score = st.score
         ∨ ∃ b ∈ bs, (shrapnelScan sx sy bs st).2.score = st.score + b.value) := by
  intro bs
  induction bs with
  | nil => intro st; exact ⟨rfl, Or.inl rfl⟩
  | cons b rest ih =>
    intro st
    by_cases hcond : 0 < b.status ∧ b.x < sx ∧ sx < b.x + b.width ∧ b.y < sy ∧
        sy < b.y + b.height
    · rw [shrapnelScan, if_pos hcond]
      exact ⟨rfl, Or.inr ⟨b, by simp, rfl⟩⟩
    · rw [shrapnelScan, if_neg hcond]
      rcases ih st with ⟨h1, h2 | ⟨b', hb', h2⟩⟩
      · exact ⟨h1, Or.inl h2⟩
      · exact ⟨h1, Or.inr ⟨b', by simp [hb'], h2⟩⟩

/-- The pellet scan leaves the streak untouched and adds either nothing or a
flat 10 points. -/
lemma pelletScan_score (p : PlayerProjectile) :
    ∀ (bs : List Brick) (st : ScoreState),
      (pelletScan p bs st).2.streak = st.streak
      ∧ ((pelletScan p bs st).2.score = st.score
         ∨ (pelletScan p bs st).2.score = st.score + 10) := by
  intro bs
  induction bs with
  | nil => intro st; exact ⟨rfl, Or.inl rfl⟩
  | cons b rest ih =>
    intro st
    by_cases hcond : 0 < b.status ∧ p.x < b.x + b.width ∧ b.x < p.x + p.width ∧
        p.y < b.y + b.height ∧ b.y < p.y + p.height
    · rw [pelletScan, if_pos hcond]
      exact ⟨rfl, Or.inr rfl⟩
    · rw [pelletScan, if_neg hcond]
      exact ih st

/-- Claim C10: indirect brick damage never touches the streak counter and is
scored without the streak multiplier — a lightning chain adds the raw values
of its targets, a shrapnel hit adds the struck brick's raw value, and a
turret pellet hit adds a flat 10 points. -/
theorem indirect_scoring_spec (ox oy sx sy : ℚ) (p : PlayerProjectile)
    (bricks : List Brick) (st : ScoreState) :
    ((triggerLightning ox oy bricks st).2.streak = st.streak
      ∧ (triggerLightning ox oy bricks st).2.score
          = st.score + ((chainTargets ox oy bricks).map fun q => q.2.value).sum)
    ∧ ((shrapnelScan sx sy bricks st).2.streak = st.streak
      ∧ ((shrapnelScan sx sy bricks st).2.score = st.score
         ∨ ∃ b ∈ bricks, (shrapnelScan sx sy bricks st).2.score = st.score + b.value))
    ∧ ((pelletScan p bricks st).2.streak = st.streak
      ∧ ((pelletScan p bricks st).2.score = st.score
         ∨ (pelletScan p bricks st).2.score = st.score + 10)) := by
  refine ⟨?_, shrapnelScan_score sx sy bricks st, pelletScan_score p bricks st⟩
  unfold triggerLightning
  exact lightning_foldl_score (chainTargets ox oy bricks) bricks st

/-- A ball-brick hit either zeroes the brick (portal) or deals exactly 1
damage, never touching `maxHealth`. -/
lemma handleBallBrickHit_brick_cases (base r1 r2 : ℚ) (ball : Ball) (b : Brick)
    (col : Collision) :
    (handleBallBrickHit base r1 r2 ball b col).2 = { b with status := 0 }
    ∨ (handleBallBrickHit base r1 r2 ball b col).2 = { b with status := b.status - 1 } := by
  unfold handleBallBrickHit resolveNormalBrickHit
  by_cases hb : b.type = BrickType.portal
  · rw [if_pos hb]
    exact Or.inl rfl
  · rw [if_neg hb]
    by_cases hp : isMomentumPierce base ball
    · rw [if_pos hp]
      exact Or.inr rfl
    · rw [if_neg hp]
      rcases col.axis with _ | ax
      · exact Or.inr rfl
      · cases ax
        · exact Or.inr rfl
        · exact Or.inr rfl

/-- Guarded 1-damage keeps the health bounds. -/
lemma BrickInv_damage {b : Brick} (h : BrickInv b) (hpos : 0 < b.status) :
    BrickInv { b with status := b.status - 1 } := by
  unfold BrickInv at *
  dsimp only
  omega

/-- The ball-brick scan preserves the health bounds of every brick. -/
lemma ballBrickScan_inv (base r1 r2 : ℚ) (ball : Ball) :
    ∀ (bs : List Brick) (st : ScoreState), (∀ b ∈ bs, BrickInv b) →
      ∀ b ∈ (ballBrickScan base r1 r2 ball bs st).2.1, BrickInv b := by
  intro bs
  induction bs with
  | nil => intro st h b hb; simp [ballBrickScan] at hb
  | cons hd rest ih =>
    intro st h b hb
    by_cases hc : 0 < hd.status ∧
        (detectCircleRectCollision ball.toCircle hd.toRect).hit = true
    · rw [ballBrickScan, if_pos hc] at hb
      rcases List.mem_cons.mp hb with hb | hb
      · have hinv := h hd (by simp)
        rcases handleBallBrickHit_brick_cases base r1 r2 ball hd
            (detectCircleRectCollision ball.toCircle hd.toRect) with hcase | hcase
        · rw [hb, hcase]
          exact ⟨le_refl 0, le_trans hinv.1 hinv.2⟩
        · rw [hb, hcase]
          exact BrickInv_damage hinv hc.1
      · exact h b (by simp [hb])
    · rw [ballBrickScan, if_neg hc] at hb
      rcases List.mem_cons.mp hb with hb | hb
      · exact hb ▸ h hd (by simp)
      · exact ih st (fun x hx => h x (by simp [hx])) b hb

/-- Every lightning chain target is a live brick of the list. -/
lemma chainTargets_mem {ox oy : ℚ} {bricks : List Brick} {p : ℕ × Brick}
    (hp : p ∈ chainTargets ox oy bricks) : p.2 ∈ bricks ∧ 0 < p.2.status := by
  unfold chainTargets at hp
  have h1 := List.mem_of_mem_take hp
  rw [List.mem_mergeSort, List.mem_filter, List.mem_filter] at h1
  rcases p with ⟨i, b⟩
  have hmem := List.mem_enum h1.1.1
  refine ⟨?_, by simpa using h1.1.2⟩
  rw [hmem.2]
  exact List.getElem_mem _

/-- The lightning fold preserves the health bounds when every target is a
live brick within its bounds. -/
lemma lightning_foldl_inv (ts : List (ℕ × Brick))
    (ht : ∀ q ∈ ts, 0 < q.2.status ∧ q.2.status ≤ q.2.maxHealth) :
    ∀ (bs : List Brick) (st : ScoreState), (∀ b ∈ bs, BrickInv b) →
      ∀ b ∈ (ts.foldl
        (fun acc p => (acc.1.set p.1 { p.2 with status := p.2.status - 1 },
          scoreLightningHit acc.2 p.2.value)) (bs, st)).1, BrickInv b := by
  induction ts with
  | nil => intro bs st h b hb; simpa using h b (by simpa using hb)
  | cons q ts ih =>
    intro bs st h b hb
    simp only [List.foldl_cons] at hb
    have hq := ht q (by simp)
    refine ih (fun r hr => ht r (by simp [hr])) _ _ ?_ b hb
    intro x hx
    rcases List.mem_or_eq_of_mem_set hx with hx | hx
    · exact h x hx
    · rw [hx]
      exact BrickInv_damage ⟨le_of_lt hq.1, hq.2⟩ hq.1

/-- `triggerLightning` preserves the health bounds. -/
lemma triggerLightning_inv (ox oy : ℚ) (bs : List Brick) (st : ScoreState)
    (h : ∀ b ∈ bs, BrickInv b) :
    ∀ b ∈ (triggerLightning ox oy bs st).1, BrickInv b := by
  unfold triggerLightning
  refine lightning_foldl_inv (chainTargets ox oy bs) ?_ bs st h
  intro q hq
  have hm := chainTargets_mem hq
  exact ⟨hm.2, (h q.2 hm.1).2⟩

/-- The shrapnel scan preserves the health bounds. -/
lemma shrapnelScan_inv (sx sy : ℚ) :
    ∀ (bs : List Brick) (st : ScoreState), (∀ b ∈ bs, BrickInv b) →
      ∀ b ∈ (shrapnelScan sx sy bs st).1, BrickInv b := by
  intro bs
  induction bs with
  | nil => intro st h b hb; simp [shrapnelScan] at hb
  | cons hd rest ih =>
    intro st h b hb
    by_cases hc : 0 < hd.status ∧ hd.x < sx ∧ sx < hd.x + hd.width ∧ hd.y < sy ∧
        sy < hd.y + hd.height
    · rw [shrapnelScan, if_pos hc] at hb
      rcases List.mem_cons.mp hb with hb | hb
      · have hinv := h hd (by simp)
        rw [hb]
        exact BrickInv_damage hinv hc.1
      · exact h b (by simp [hb])
    · rw [shrapnelScan, if_neg hc] at hb
      rcases List.mem_cons.mp hb with hb | hb
      · exact hb ▸ h hd (by simp)
      · exact ih st (fun x hx => h x (by simp [hx])) b hb

/-- The pellet scan preserves the health bounds. -/
lemma pelletScan_inv (p : PlayerProjectile) :
    ∀ (bs : List Brick) (st : ScoreState), (∀ b ∈ bs, BrickInv b) →
      ∀ b ∈ (pelletScan p bs st).1, BrickInv b := by
  intro bs
  induction bs with
  | nil => intro st h b hb; simp [pelletScan] at hb
  | cons hd rest ih =>
    intro st h b hb
    by_cases hc : 0 < hd.status ∧ p.x < hd.x + hd.width ∧ hd.x < p.x + p.width ∧
        p.y < hd.y + hd.height ∧ hd.y < p.y + p.height
    · rw [pelletScan, if_pos hc] at hb
      rcases List.mem_cons.mp hb with hb | hb
      · have hinv := h hd (by simp)
        rw [hb]
        exact BrickInv_damage hinv hc.1
      · exact h b (by simp [hb])
    · rw [pelletScan, if_neg hc] at hb
      rcases List.mem_cons.mp hb with hb | hb
      · exact hb ▸ h hd (by simp)
      · exact ih st (fun x hx => h x (by simp [hx])) b hb

/-- The laser preserves the health bounds (it only zeroes statuses). -/
lemma fireLaserStep_inv (center : ℚ) (bs : List Brick) (st : ScoreState)
    (h : ∀ b ∈ bs, BrickInv b) :
    ∀ b ∈ (fireLaserStep center bs st).1, BrickInv b := by
  intro b hb
  unfold fireLaserStep at hb
  obtain ⟨a, ha, hab⟩ := List.mem_map.mp hb
  have hinv := h a ha
  by_cases hl : laserHits center a
  · rw [if_pos hl] at hab
    rw [← hab]
    exact ⟨le_refl 0, le_trans hinv.1 hinv.2⟩
  · rw [if_neg hl] at hab
    exact hab ▸ hinv

/-- An element found through `getElem?` is a member of the list. -/
lemma mem_of_getElemOpt {α : Type _} {l : List α} {i : ℕ} {a : α}
    (h : l[i]? = some a) : a ∈ l :=
  List.get?_mem (by rw [List.get?_eq_getElem?]; exact h)

/-- Setting an index to a value with valid bounds keeps the bounds. -/
lemma setInv {bs : List Brick} {v : Brick} (h : ∀ b ∈ bs, BrickInv b)
    (hv : BrickInv v) (i : ℕ) : ∀ b ∈ bs.set i v, BrickInv b := by
  intro b hb
  rcases List.mem_or_eq_of_mem_set hb with hb | hb
  · exact h b hb
  · exact hb ▸ hv

/-- Re-stamping a brick's action timestamp keeps its health bounds. -/
lemma BrickInv_stamp {b : Brick} (h : BrickInv b) (now : ℤ) :
    BrickInv { b with lastActionTime := some now } := h

/-- A Healer tick preserves the health bounds: a heal writes exactly
`maxHealth` and a spawn appends a fresh 1/1 Standard brick. -/
lemma healerTickAt_inv (now : ℤ) (i : ℕ) (shuffled : List (ℚ × ℚ))
    (bs : List Brick) (h : ∀ b ∈ bs, BrickInv b) :
    ∀ b ∈ healerTickAt now i shuffled bs, BrickInv b := by
  unfold healerTickAt
  rcases hi : bs[i]? with _ | healer
  · exact h
  · have hhe : BrickInv healer := h healer (mem_of_getElemOpt hi)
    dsimp only
    by_cases hg : healer.type = BrickType.healer ∧ 0 < healer.status
    · rw [if_pos hg]
      rcases hlt : healer.lastActionTime with _ | t
      · exact setInv h (BrickInv_stamp hhe now) i
      · dsimp only
        by_cases hint : 5000 < now - t
        · rw [if_pos hint]
          have hset : ∀ b ∈ bs.set i { healer with lastActionTime := some now },
              BrickInv b := setInv h (BrickInv_stamp hhe now) i
          unfold healerAct
          rcases hht : healTarget (bs.set i { healer with lastActionTime := some now })
              healer with _ | ⟨j, nb⟩
          · rcases hsp : healerSpawnPos (bs.set i { healer with lastActionTime := some now })
                healer shuffled with _ | pos
            · exact hset
            · intro b hb
              rcases List.mem_append.mp hb with hb | hb
              · exact hset b hb
              · have : b = newStandardBrick pos.1 pos.2 healer.width := by simpa using hb
                rw [this]
                exact ⟨by norm_num [newStandardBrick], by norm_num [newStandardBrick]⟩
          · have hprops := healTarget_props hht
            have hnb : BrickInv nb := hset nb (mem_of_getElemOpt hprops.1)
            refine setInv hset ?_ j
            exact ⟨le_trans hnb.1 hnb.2, le_refl _⟩
        · rw [if_neg hint]
          exact h
    · rw [if_neg hg]
      exact h

/-- A freshly spawned Standard brick satisfies the health bounds. -/
lemma newStandardBrick_inv (x y width : ℚ) : BrickInv (newStandardBrick x y width) :=
  ⟨by norm_num [newStandardBrick], by norm_num [newStandardBrick]⟩

/-- A Spore tick preserves the health bounds: it only re-stamps its
timestamp and possibly appends a fresh 1/1 Standard brick. -/
lemma sporeTickAt_inv (now : ℤ) (i rnd : ℕ) (bs : List Brick)
    (h : ∀ b ∈ bs, BrickInv b) : ∀ b ∈ sporeTickAt now i rnd bs, BrickInv b := by
  unfold sporeTickAt
  rcases hi : bs[i]? with _ | spore
  · exact h
  · have hsp : BrickInv spore := h spore (mem_of_getElemOpt hi)
    dsimp only
    by_cases hg : spore.type = BrickType.spore ∧ 0 < spore.status
    · rw [if_pos hg]
      rcases hlt : spore.lastActionTime with _ | t
      · exact setInv h (BrickInv_stamp hsp now) i
      · dsimp only
        by_cases hint : 4000 < now - t
        · rw [if_pos hint]
          have hset : ∀ b ∈ bs.set i { spore with lastActionTime := some now },
              BrickInv b := setInv h (BrickInv_stamp hsp now) i
          by_cases hlen : 0 < (sporeValidSpots
              (bs.set i { spore with lastActionTime := some now }) spore).length
          · rw [if_pos hlen]
            rcases hpos : (sporeValidSpots
                (bs.set i { spore with lastActionTime := some now }) spore)[rnd %
                (sporeValidSpots
                  (bs.set i { spore with lastActionTime := some now }) spore).length]?
              with _ | pos
            · exact hset
            · intro b hb
              rcases List.mem_append.mp hb with hb | hb
              · exact hset b hb
              · have : b = newStandardBrick pos.1 pos.2 spore.width := by simpa using hb
                exact this ▸ newStandardBrick_inv _ _ _
          · rw [if_neg hlen]
            exact hset
        · rw [if_neg hint]
          exact h
    · rw [if_neg hg]
      exact h

/-- The Multiball loop never adds more balls than the remaining space. -/
lemma multiballAdds_le : ∀ (n : ℕ) (s : ℤ), (multiballAdds n s : ℤ) ≤ max s 0 := by
  intro n
  induction n with
  | zero =>
    intro s
    simp [multiballAdds]
  | succ n ih =>
    intro s
    unfold multiballAdds
    by_cases h0 : s ≤ 0
    · rw [if_pos h0]
      simp
    · rw [if_neg h0]
      push_neg at h0
      simp only [if_pos h0]
      by_cases h1 : (0 : ℤ) < s - 1
      · simp only [if_pos h1]
        have hih := ih (s - 1 - 1)
        have hmax : max (s - 1 - 1) 0 = s - 1 - 1 := max_eq_left (by omega)
        rw [hmax] at hih
        have hmax2 : max s 0 = s := max_eq_left (by omega)
        rw [hmax2]
        push_cast
        omega
      · simp only [if_neg h1]
        have hih := ih (s - 1)
        have hmax : max (s - 1) 0 = 0 := max_eq_right (by omega)
        rw [hmax] at hih
        have hmax2 : max s 0 = s := max_eq_left (by omega)
        rw [hmax2]
        push_cast
        omega

/-- Multiball keeps the ball count within `MAX_BALLS`. -/
lemma multiballNewCount_le {n : ℕ} (h : n ≤ MAX_BALLS) :
    multiballNewCount n ≤ MAX_BALLS := by
  unfold multiballNewCount
  have hadds := multiballAdds_le n ((MAX_BALLS : ℤ) - (n : ℤ))
  have hmax : max ((MAX_BALLS : ℤ) - (n : ℤ)) 0 = (MAX_BALLS : ℤ) - (n : ℤ) :=
    max_eq_left (by omega)
  rw [hmax] at hadds
  show (if n + multiballAdds n ((MAX_BALLS : ℤ) - (n : ℤ)) = 0 then 1
    else n + multiballAdds n ((MAX_BALLS : ℤ) - (n : ℤ))) ≤ MAX_BALLS
  by_cases hz : n + multiballAdds n ((MAX_BALLS : ℤ) - (n : ℤ)) = 0
  · rw [if_pos hz]
    norm_num [MAX_BALLS]
  · rw [if_neg hz]
    omega

/-- Claim C1: every per-tick mutation of brick health or of the brick
collection (ball hit, lightning, shrapnel, pellet, laser, Healer heal or
spawn, Spore spawn) keeps each brick's health in `[0, maxHealth]`, and every
ball-collection mutation (Multiball with its overflow drop, soft reset, loss
cleanup) keeps the ball count within `MAX_BALLS`. -/
theorem simInv_preserved (op : SimOp) (s : SimState) (h : SimInv s) :
    SimInv (applyOp s op) := by
  obtain ⟨hb, hc⟩ := h
  cases op with
  | ballHit base r1 r2 ball =>
    exact ⟨ballBrickScan_inv base r1 r2 ball s.bricks s.scoring hb, hc⟩
  | lightning ox oy => exact ⟨triggerLightning_inv ox oy s.bricks s.scoring hb, hc⟩
  | shrapnel sx sy => exact ⟨shrapnelScan_inv sx sy s.bricks s.scoring hb, hc⟩
  | pellet p => exact ⟨pelletScan_inv p s.bricks s.scoring hb, hc⟩
  | laser center => exact ⟨fireLaserStep_inv center s.bricks s.scoring hb, hc⟩
  | healerTick now i shuffled => exact ⟨healerTickAt_inv now i shuffled s.bricks hb, hc⟩
  | sporeTick now i rnd => exact ⟨sporeTickAt_inv now i rnd s.bricks hb, hc⟩
  | multiball => exact ⟨hb, multiballNewCount_le hc⟩
  | softReset => exact ⟨hb, show 1 ≤ MAX_BALLS by norm_num [MAX_BALLS]⟩
  | clearBalls => exact ⟨hb, Nat.zero_le _⟩

/-- Claim C1 (witness): the invariant preserved through a concrete Multiball
pickup on a one-brick, one-ball state. -/
theorem simInv_preserved_witness :
    SimInv (applyOp
      { bricks := [standardBrickEx], ballCount := 1,
        scoring := { score := 0, streak := 0 } } SimOp.multiball) := by
  refine simInv_preserved SimOp.multiball _ ⟨?_, ?_⟩
  · intro b hb
    have : b = standardBrickEx := by simpa using hb
    rw [this]
    exact ⟨by norm_num [standardBrickEx], by norm_num [standardBrickEx]⟩
  · norm_num [MAX_BALLS]

end NeonBreaker
